import Mathlib

/-!
Shallow embedding of the diagram-synchronization core of chartdb
(`table-field.tsx`: the `TableField` field editor and the `Canvas`
component), together with proofs of the specification claims.

JavaScript numbers are modelled by `JsNum` (NaN, the two infinities, and
finite values as rationals); fallible lookups return `Option`; the
side-effecting handlers are modelled as pure functions returning the list
of calls they make to the domain mutation surface.
-/

namespace ChartDB

/-- A JavaScript number: NaN, positive/negative infinity, or a finite value
(modelled as a rational). -/
inductive JsNum where
  | nan
  | posInf
  | negInf
  | fin (q : ℚ)
deriving DecidableEq, Repr

/-- JavaScript `isNaN` on a number. -/
def jsIsNaN : JsNum → Bool
  | .nan => true
  | _ => false

/-- JavaScript `Number.isFinite` on a number. -/
def jsIsFinite : JsNum → Bool
  | .fin _ => true
  | _ => false

/-- JavaScript `typeof v === 'number'`: every `JsNum` is a number (the
source's defensive `typeof` checks run on values that are already typed
`number`). -/
def jsIsNumber : JsNum → Bool
  | _ => true

/-- JavaScript `Math.round`: round-half-up on finite values, identity on
NaN and the infinities. -/
def jsRound : JsNum → JsNum
  | .fin q => .fin ((⌊q + 1/2⌋ : ℤ) : ℚ)
  | x => x

/-- The coordinate sanitization expression used by `tableToTableNode` and
`onNodesChangeHandler`: `typeof v === 'number' && !isNaN(v) ? v : fb`. -/
def sanCoord (v fb : JsNum) : JsNum :=
  if jsIsNumber v && !jsIsNaN v then v else fb

/-- Measured dimensions as reported by the rendering surface
(`{width?, height?}`). -/
structure Dims where
  width : Option JsNum := none
  height : Option JsNum := none
deriving DecidableEq, Repr

/-- Domain table (`DBTable`): the fields the canvas core reads. -/
structure DBTable where
  id : String
  x : JsNum
  y : JsNum
  width : Option JsNum := none
  schema : Option String := none
deriving DecidableEq, Repr

/-- Domain freeform area (`Area`). -/
structure Area where
  id : String
  x : JsNum
  y : JsNum
  width : JsNum
  height : JsNum
deriving DecidableEq, Repr

/-- Domain relationship (`DBRelationship`): the fields the canvas core reads. -/
structure Relationship where
  id : String
  sourceTableId : String
  sourceFieldId : String
  targetTableId : String
  targetFieldId : String
deriving DecidableEq, Repr

/-- Domain dependency (`DBDependency`): the fields the canvas core reads. -/
structure Dependency where
  id : String
  tableId : String
  dependentTableId : String
deriving DecidableEq, Repr

/-- Modelled from the spec: the `DatabaseType` enum lives in
`lib/domain/database-type` outside the given sources; the canvas code only
compares against `DatabaseType.CLICKHOUSE`, so the enum is reproduced with
the dialects the spec mentions. -/
inductive DatabaseType where
  | generic
  | postgresql
  | mysql
  | sqlServer
  | mariadb
  | sqlite
  | clickhouse
  | cockroachdb
  | oracle
deriving DecidableEq, BEq, Repr

/-- A field data type (`{id, name}` as used by `areFieldTypesCompatible`). -/
structure FieldType where
  id : String
  name : String
deriving DecidableEq, Repr

/-- Domain field (`DBField`): the fields the field editor reads. -/
structure DBField where
  id : String
  name : String
  type : FieldType
  primaryKey : Bool := false
  unique : Bool := false
  nullable : Bool := false
  characterMaximumLength : Option String := none
  comments : Option String := none
deriving DecidableEq, Repr

/-- A `Partial<DBField>` update payload as passed to `updateField`: each
key either absent (`none`) or present. -/
structure FieldUpdate where
  name : Option String := none
  type : Option FieldType := none
  characterMaximumLength : Option String := none
  primaryKey : Option Bool := none
  unique : Option Bool := none
  nullable : Option Bool := none
  comments : Option String := none
deriving DecidableEq, Repr

/-- The update payloads issued (through the 200ms-debounced writer) when the
primary-key toggle is pressed with value `value`:
`debouncedUpdateRef.current({ unique: value, primaryKey: value })`. -/
def primaryKeyToggleUpdates (value : Bool) : List FieldUpdate :=
  [{ unique := some value, primaryKey := some value }]

/-- The update payloads issued (through the 200ms-debounced writer) when the
nullable toggle is pressed with value `value`:
`debouncedUpdateRef.current({ nullable: value })`. -/
def nullableToggleUpdates (value : Bool) : List FieldUpdate :=
  [{ nullable := some value }]

/-- Modelled from the spec: the handle-id leading-string constants
(`LEFT_HANDLE_ID_PREFIX` and friends) are imported from the table-node
modules outside the given sources; the claims do not depend on their
values, only on how the canvas concatenates them. -/
def LEFT_HANDLE_ID_PRE : String := "left_rel_"

/-- Modelled from the spec: see `LEFT_HANDLE_ID_PRE`. -/
def TARGET_ID_PRE : String := "target_rel_"

/-- Modelled from the spec: see `LEFT_HANDLE_ID_PRE`. -/
def TOP_SOURCE_HANDLE_ID_PRE : String := "top_dep_"

/-- Modelled from the spec: see `LEFT_HANDLE_ID_PRE`. -/
def BOTTOM_SOURCE_HANDLE_ID_PRE : String := "bottom_dep_"

/-- Modelled from the spec: see `LEFT_HANDLE_ID_PRE`. -/
def TARGET_DEP_PRE : String := "target_dep_"

/-- Modelled from the spec: the minimum table width constant
(`MIN_TABLE_SIZE`, defined in the table-node module outside the given
sources); its numeric value is immaterial to every claim. -/
def MIN_TABLE_SIZE : JsNum := .fin 224

/-- Modelled from the spec: `shouldShowTablesBySchemaFilter` lives in
`lib/domain/db-table` outside the given sources; the spec says `hidden` is
set from schema-filter membership, so with no active filter every table is
shown and with a filter a table is shown exactly when its schema belongs
to it. -/
def shouldShowTablesBySchemaFilter (table : DBTable)
    (filteredSchemas : Option (List String)) : Bool :=
  match filteredSchemas, table.schema with
  | none, _ => true
  | some fs, some s => fs.contains s
  | some _, none => false

/-- Modelled from the spec: the overlap `Graph` type from `lib/graph`
(outside the given sources) is an adjacency mapping plus a monotonic
version counter; the canvas only reads `graph.get(id)`. -/
structure Graph where
  graph : List (String × List String) := []
  lastUpdated : Nat := 0
deriving DecidableEq, Repr

/-- `Map.get` on the overlap graph's adjacency mapping. -/
def Graph.getAdj (g : Graph) (k : String) : Option (List String) :=
  (g.graph.find? (fun p => p.1 == k)).map (fun p => p.2)

/-- Kinds of visual nodes. -/
inductive NodeKind where
  | table
  | area
deriving DecidableEq, BEq, Repr

/-- A rendering-facing visual node (`TableNodeType`/`AreaNodeType`): the
fields the canvas core reads or writes. -/
structure Node where
  id : String
  ntype : NodeKind
  position : JsNum × JsNum
  width : Option JsNum := none
  height : Option JsNum := none
  measured : Option Dims := none
  dragging : Bool := false
  resizing : Bool := false
  selected : Bool := false
  hidden : Bool := false
  draggable : Bool := false
  zIndex : Option Int := none
  isOverlapping : Bool := false
  highlightOverlappingTables : Bool := false
deriving DecidableEq, Repr

/-- `tableToTableNode(table, filteredSchemas)`: projection of a domain table
to a visual node. Coordinates go through
`typeof v === 'number' && !isNaN(v) ? v : 0`. -/
def tableToTableNode (table : DBTable)
    (filteredSchemas : Option (List String)) : Node :=
  { id := table.id
    ntype := .table
    position := (sanCoord table.x (.fin 0), sanCoord table.y (.fin 0))
    width := some (table.width.getD MIN_TABLE_SIZE)
    draggable := true
    hidden := !shouldShowTablesBySchemaFilter table filteredSchemas }

/-- `areaToAreaNode(area)`: projection of a domain area to a visual node;
the position is passed through unchanged. -/
def areaToAreaNode (area : Area) : Node :=
  { id := area.id
    ntype := .area
    position := (area.x, area.y)
    width := some area.width
    height := some area.height
    zIndex := some (-10) }

/-- Kinds of visual edges. -/
inductive EdgeKind where
  | relationship
  | dependency
deriving DecidableEq, BEq, Repr

/-- A rendering-facing visual edge (`RelationshipEdgeType`/
`DependencyEdgeType`): the fields the canvas core reads or writes.
`payloadId` is the domain entity id stored in `data`. -/
structure Edge where
  id : String
  source : String
  target : String
  sourceHandle : String
  targetHandle : String
  kind : EdgeKind
  payloadId : String
  hidden : Bool := false
  selected : Bool := false
  highlighted : Bool := false
  animated : Bool := false
  zIndex : Int := 0
deriving DecidableEq, Repr

/-- The grouping key of the relationship target-handle counter, exactly as
the source builds it: the template literal
`${relationship.targetTableId}${relationship.targetFieldId}` (plain string
concatenation, no separator). -/
def relKey (r : Relationship) : String :=
  r.targetTableId ++ r.targetFieldId

/-- The per-key post-increment counter pattern
(`acc[key]++` over a record initialized to 0 for every key of the input):
pairs each list element with the current counter value of its key and bumps
that key. -/
def assignIndexed {α : Type} (key : α → String) :
    List α → (String → Nat) → List (α × Nat)
  | [], _ => []
  | a :: rest, ctr =>
    (a, ctr (key a)) ::
      assignIndexed key rest
        (fun k => if k = key a then ctr (key a) + 1 else ctr k)

/-- Relationship indexing: counter keyed by `relKey` (the concatenated
target table and field ids). -/
def relAssign (rels : List Relationship) (ctr : String → Nat) :
    List (Relationship × Nat) :=
  assignIndexed relKey rels ctr

/-- Dependency indexing: counter keyed by `dep.tableId`. -/
def depAssign (deps : List Dependency) (ctr : String → Nat) :
    List (Dependency × Nat) :=
  assignIndexed Dependency.tableId deps ctr

/-- One projected relationship edge, given its target-handle index. -/
def mkRelEdge (p : Relationship × Nat) : Edge :=
  { id := p.1.id
    source := p.1.sourceTableId
    target := p.1.targetTableId
    sourceHandle := LEFT_HANDLE_ID_PRE ++ p.1.sourceFieldId
    targetHandle := TARGET_ID_PRE ++ toString p.2 ++ "_" ++ p.1.targetFieldId
    kind := .relationship
    payloadId := p.1.id }

/-- One projected dependency edge, given its target-handle index; hidden
unless the show-dependencies preference is set or the dialect is
ClickHouse. -/
def mkDepEdge (showDeps : Bool) (db : DatabaseType) (p : Dependency × Nat) :
    Edge :=
  { id := p.1.id
    source := p.1.dependentTableId
    target := p.1.tableId
    sourceHandle := TOP_SOURCE_HANDLE_ID_PRE ++ p.1.dependentTableId
    targetHandle := TARGET_DEP_PRE ++ toString p.2 ++ "_" ++ p.1.tableId
    kind := .dependency
    payloadId := p.1.id
    hidden := !showDeps && !(db == DatabaseType.clickhouse) }

/-- The edges-projection effect (`setEdges([...relationships.map(...),
...dependencies.map(...)])`). -/
def canvasEdges (relationships : List Relationship)
    (dependencies : List Dependency) (showDependenciesOnCanvas : Bool)
    (databaseType : DatabaseType) : List Edge :=
  (relAssign relationships (fun _ => 0)).map mkRelEdge
    ++ (depAssign dependencies (fun _ => 0)).map
        (mkDepEdge showDependenciesOnCanvas databaseType)

/-- The selection synchronizer's node-id pass: ids of selected nodes. -/
def selectedNodeIds (nodes : List Node) : List String :=
  (nodes.filter (fun n => n.selected)).map (fun n => n.id)

/-- The selection synchronizer's edge-id pass: ids of selected edges. -/
def selectedEdgeIds (edges : List Edge) : List String :=
  (edges.filter (fun e => e.selected)).map (fun e => e.id)

/-- The edge-highlight effect: an edge is marked highlighted/animated and
raised to `zIndex` 1 exactly when its id is among the directly selected
edges or among the edges touching a selected node. -/
def highlightEdges (edges : List Edge) (selectedTableIds : List String)
    (selectedRelationshipIds : List String) : List Edge :=
  let tablesSelectedEdges :=
    (edges.filter (fun e =>
      selectedTableIds.contains e.source
        || selectedTableIds.contains e.target)).map (fun e => e.id)
  let allSelectedEdges := tablesSelectedEdges ++ selectedRelationshipIds
  edges.map (fun e =>
    let sel := allSelectedEdges.contains e.id
    { e with highlighted := sel, animated := sel
             zIndex := if sel then 1 else 0 })

/-- The domain-driven nodes re-projection effect, for one table: project it
fresh, then merge state from the existing visual node (position when valid,
measured dimensions during drag/resize, selection, drag/resize flags) and
attach the overlap flag. -/
def reprojectTable (table : DBTable) (filteredSchemas : Option (List String))
    (g : Graph) (currentNodes : List Node) (hot : Bool) : Node :=
  let isOverlapping : Bool := decide (((g.getAdj table.id).getD []).length > 0)
  let node := tableToTableNode table filteredSchemas
  let node :=
    match currentNodes.find? (fun n => n.id == table.id) with
    | some existingNode =>
      let node :=
        if jsIsNumber existingNode.position.1 && !jsIsNaN existingNode.position.1
            && jsIsNumber existingNode.position.2 && !jsIsNaN existingNode.position.2
        then { node with position := existingNode.position }
        else node
      let node :=
        if existingNode.dragging || existingNode.resizing
        then { node with measured := existingNode.measured }
        else node
      let node := { node with selected := existingNode.selected }
      let node := if existingNode.dragging then { node with dragging := true } else node
      let node := if existingNode.resizing then { node with resizing := true } else node
      node
    | none => node
  { node with isOverlapping := isOverlapping
              highlightOverlappingTables := hot }

/-- The full nodes re-projection effect: re-projected tables followed by the
projected areas. -/
def reprojectNodes (tables : List DBTable) (areas : List Area)
    (filteredSchemas : Option (List String)) (g : Graph)
    (currentNodes : List Node) (hot : Bool) : List Node :=
  tables.map (fun t => reprojectTable t filteredSchemas g currentNodes hot)
    ++ areas.map areaToAreaNode

/-- A node change delivered by the rendering surface
(`NodeChange<NodeType>`): the variants the handler inspects. A missing
`dragging`/`resizing` key is modelled as `false`. -/
inductive NodeChange where
  | position (id : String) (pos : Option (JsNum × JsNum)) (dragging : Bool)
      (measured : Option Dims)
  | dimensions (id : String) (dims : Option Dims) (resizing : Bool)
  | remove (id : String)
  | select (id : String) (selected : Bool)
deriving DecidableEq, Repr

/-- `change.id`. -/
def NodeChange.cid : NodeChange → String
  | .position id _ _ _ => id
  | .dimensions id _ _ => id
  | .remove id => id
  | .select id _ => id

/-- `change.type === 'position'`. -/
def NodeChange.isPosition : NodeChange → Bool
  | .position _ _ _ _ => true
  | _ => false

/-- `change.type === 'dimensions'`. -/
def NodeChange.isDimensions : NodeChange → Bool
  | .dimensions _ _ _ => true
  | _ => false

/-- `change.type === 'remove'`. -/
def NodeChange.isRemove : NodeChange → Bool
  | .remove _ => true
  | _ => false

/-- `change.dragging` of a position change (`false` when absent or of
another kind). -/
def NodeChange.draggingFlag : NodeChange → Bool
  | .position _ _ d _ => d
  | _ => false

/-- `change.resizing` of a dimension change (`false` when absent or of
another kind). -/
def NodeChange.resizingFlag : NodeChange → Bool
  | .dimensions _ _ r => r
  | _ => false

/-- `change.position` of a position change. -/
def NodeChange.posOf : NodeChange → Option (JsNum × JsNum)
  | .position _ p _ _ => p
  | _ => none

/-- `change.dimensions` of a dimension change. -/
def NodeChange.dimsOf : NodeChange → Option Dims
  | .dimensions _ d _ => d
  | _ => none

/-- `getNode(id)` over the current node collection. -/
def getNode (nodes : List Node) (id : String) : Option Node :=
  nodes.find? (fun n => n.id == id)

/-- The position-change sanitization map at the top of
`onNodesChangeHandler`: a NaN (or non-number) coordinate is replaced by the
current node's coordinate when the node exists, else by 0, and the current
node's measured dimensions are attached to the change. -/
def sanitizeNodeChange (nodes : List Node) : NodeChange → NodeChange
  | .position id (some p) dragging _ =>
    let node := getNode nodes id
    let fbx : JsNum := match node with
      | some n => n.position.1
      | none => .fin 0
    let fby : JsNum := match node with
      | some n => n.position.2
      | none => .fin 0
    .position id (some (sanCoord p.1 fbx, sanCoord p.2 fby)) dragging
      (match node with
        | some n => n.measured
        | none => none)
  | c => c

/-- The result record of `findRelevantNodesChanges`. -/
structure RelevantChanges where
  positionChanges : List NodeChange
  removeChanges : List NodeChange
  sizeChanges : List NodeChange
deriving DecidableEq, Repr

/-- `findRelevantNodesChanges(changes, type)`: keep the
position/dimensions/remove changes whose node exists and has the requested
kind, then split them into non-dragging position changes, remove changes,
and resizing dimension changes. -/
def findRelevantNodesChanges (nodes : List Node) (changes : List NodeChange)
    (t : NodeKind) : RelevantChanges :=
  let relevantChanges := changes.filter (fun c =>
    if c.isPosition || c.isDimensions || c.isRemove then
      match getNode nodes c.cid with
      | none => false
      | some n => n.ntype == t
    else false)
  { positionChanges :=
      relevantChanges.filter (fun c => c.isPosition && !c.draggingFlag)
    removeChanges := relevantChanges.filter (fun c => c.isRemove)
    sizeChanges :=
      relevantChanges.filter (fun c => c.isDimensions && c.resizingFlag) }

/-- `Map.set` semantics over an insertion-ordered association list: replace
in place when the key exists, else append. -/
def mapSet (m : List (String × JsNum × JsNum)) (k : String)
    (v : JsNum × JsNum) : List (String × JsNum × JsNum) :=
  if m.any (fun e => e.1 == k) then
    m.map (fun e => if e.1 == k then (k, v) else e)
  else m ++ [(k, v)]

/-- One step of the `updates` map construction inside `updateTablesState`:
position changes with a position payload record `(id, round x, round y)`. -/
def buildUpdatesStep (m : List (String × JsNum × JsNum)) (c : NodeChange) :
    List (String × JsNum × JsNum) :=
  match c.posOf with
  | some p => mapSet m c.cid (jsRound p.1, jsRound p.2)
  | none => m

/-- The `updates` map built inside the `updateTablesState` callback. -/
def buildUpdates (cs : List NodeChange) : List (String × JsNum × JsNum) :=
  cs.foldl buildUpdatesStep []

/-- A call made by the node-change handler to the domain mutation surface
or to the debounced overlap recompute. -/
inductive Effect where
  | updateTablesState (updates : List (String × JsNum × JsNum))
      (removals : List String)
  | overlapTrigger (positionIds sizeIds : List String)
  | updateArea (id : String) (x y : Option JsNum) (width height : Option JsNum)
  | removeArea (id : String)
deriving DecidableEq, Repr

/-- The `updateArea` payload for one area change. The source always puts
the `x`/`y` (or `width`/`height`) keys into `updateData`, so
`Object.keys(updateData).length > 0` holds and the call is always made;
the two final arms are unreachable because only position and dimension
changes are fed in. -/
def areaUpdateEffect : NodeChange → Effect
  | .position id p _ _ =>
    .updateArea id (p.map Prod.fst) (p.map Prod.snd) none none
  | .dimensions id d _ =>
    .updateArea id none none (d.bind Dims.width) (d.bind Dims.height)
  | .remove id => .updateArea id none none none none
  | .select id _ => .updateArea id none none none none

/-- `onNodesChangeHandler(changes)` as an effect trace: sanitize position
payloads, drop remove changes when read-only, issue at most one batched
table patch plus one debounced overlap-recompute trigger (suppressed while
dragging), and forward area changes individually. -/
def nodesHandlerEffects (nodes : List Node) (readonly : Bool)
    (changes : List NodeChange) : List Effect :=
  let changesToApply := changes.map (sanitizeNodeChange nodes)
  let changesToApply :=
    if readonly then changesToApply.filter (fun c => !c.isRemove)
    else changesToApply
  let rel := findRelevantNodesChanges nodes changesToApply .table
  let tableEffects :=
    if rel.positionChanges.length > 0 || rel.removeChanges.length > 0
        || rel.sizeChanges.length > 0 then
      let isDragging := rel.positionChanges.any (fun c => c.draggingFlag)
      if !isDragging then
        [Effect.updateTablesState (buildUpdates rel.positionChanges)
            (rel.removeChanges.map NodeChange.cid),
         Effect.overlapTrigger (rel.positionChanges.map NodeChange.cid)
            (rel.sizeChanges.map NodeChange.cid)]
      else []
    else []
  let areaRel := findRelevantNodesChanges nodes changesToApply .area
  let areaEffects :=
    if areaRel.positionChanges.length > 0 || areaRel.removeChanges.length > 0
        || areaRel.sizeChanges.length > 0 then
      (areaRel.positionChanges ++ areaRel.sizeChanges).map areaUpdateEffect
        ++ areaRel.removeChanges.map (fun c => Effect.removeArea c.cid)
    else []
  tableEffects ++ areaEffects

/-- An edge change delivered by the rendering surface: the variants the
handler inspects. -/
inductive EdgeChange where
  | remove (id : String)
  | select (id : String) (selected : Bool)
deriving DecidableEq, Repr

/-- `change.id`. -/
def EdgeChange.eid : EdgeChange → String
  | .remove id => id
  | .select id _ => id

/-- `change.type === 'remove'`. -/
def EdgeChange.isRemove : EdgeChange → Bool
  | .remove _ => true
  | _ => false

/-- A call made by the edge-change handler to the domain mutation surface. -/
inductive EdgeEffect where
  | removeRelationships (ids : List String)
  | removeDependencies (ids : List String)
deriving DecidableEq, Repr

/-- `getEdge(id)` over the current edge collection. -/
def getEdge (edges : List Edge) (id : String) : Option Edge :=
  edges.find? (fun e => e.id == id)

/-- `onEdgesChangeHandler(changes)` as an effect trace: drop remove changes
when read-only, then forward the surviving removals, split by edge kind, to
`removeRelationships`/`removeDependencies` (each called only when its list
is non-empty). -/
def edgesHandlerEffects (edges : List Edge) (readonly : Bool)
    (changes : List EdgeChange) : List EdgeEffect :=
  let changesToApply :=
    if readonly then changes.filter (fun c => !c.isRemove) else changes
  let removeChanges := changesToApply.filter (fun c => c.isRemove)
  let edgesToRemove := removeChanges.filterMap (fun c => getEdge edges c.eid)
  let relationshipsToRemove :=
    (edgesToRemove.filter (fun e => e.kind == EdgeKind.relationship)).map
      Edge.payloadId
  let dependenciesToRemove :=
    (edgesToRemove.filter (fun e => e.kind == EdgeKind.dependency)).map
      Edge.payloadId
  (if relationshipsToRemove.length > 0 then
    [EdgeEffect.removeRelationships relationshipsToRemove]
   else [])
    ++ (if dependenciesToRemove.length > 0 then
      [EdgeEffect.removeDependencies dependenciesToRemove]
     else [])

/-- The endpoints delivered by a connect gesture (`AddEdgeParams`). -/
structure ConnectParams where
  source : String
  target : String
  sourceHandle : Option String
  targetHandle : Option String
deriving DecidableEq, Repr

/-- A call made by the connect handler. -/
inductive ConnectEffect where
  | createDependency (tableId dependentTableId : String)
  | toastIncompatible
  | createRelationship (sourceTableId targetTableId sourceFieldId
      targetFieldId : String)
deriving DecidableEq, Repr

/-- `handle?.startsWith?.(p)` with a possibly missing handle (JavaScript
`String.prototype.startsWith`, expressed over the character list). -/
def optStartsWith (s : Option String) (p : String) : Bool :=
  match s with
  | some s => p.data.isPrefixOf s.data
  | none => false

/-- JavaScript `str.split(c)` for a single-character separator: splits at
every occurrence of `c`; the empty string yields one empty segment. -/
def splitOnChar (c : Char) : List Char → List (List Char)
  | [] => [[]]
  | a :: rest =>
    let r := splitOnChar c rest
    if a = c then [] :: r
    else
      match r with
      | [] => [[a]]
      | h :: t => (a :: h) :: t

/-- `handle?.split('_')?.pop() ?? ''`: the segment after the last
underscore, or the empty string when the handle is missing. -/
def handleFieldId (h : Option String) : String :=
  match h with
  | some s => (((splitOnChar '_' s.data).map String.mk).getLast?).getD ""
  | none => ""

/-- `onConnectHandler(params)` as an effect trace, parameterized by the
domain store's `getField` query and by `areFieldTypesCompatible` (which
lives in the data-types module outside the given sources). -/
def onConnectHandler (getField : String → String → Option DBField)
    (compat : FieldType → FieldType → DatabaseType → Bool)
    (databaseType : DatabaseType) (params : ConnectParams) :
    List ConnectEffect :=
  if optStartsWith params.sourceHandle TOP_SOURCE_HANDLE_ID_PRE
      || optStartsWith params.sourceHandle BOTTOM_SOURCE_HANDLE_ID_PRE then
    [ConnectEffect.createDependency params.target params.source]
  else
    let sourceTableId := params.source
    let targetTableId := params.target
    let sourceFieldId := handleFieldId params.sourceHandle
    let targetFieldId := handleFieldId params.targetHandle
    match getField sourceTableId sourceFieldId,
        getField targetTableId targetFieldId with
    | some sourceField, some targetField =>
      if !compat sourceField.type targetField.type databaseType then
        [ConnectEffect.toastIncompatible]
      else
        [ConnectEffect.createRelationship sourceTableId targetTableId
          sourceFieldId targetFieldId]
    | _, _ => []

/-! Concrete inputs used by counterexamples and witnesses. -/

/-- A table with an infinite x coordinate (counterexample input for the
non-finite sanitization claim). -/
def c1Table : DBTable := { id := "t", x := .posInf, y := .fin 0 }

/-- A table with NaN coordinates (witness input). -/
def c1WTable : DBTable := { id := "t", x := .nan, y := .nan }

/-- A current node with finite coordinates (witness input). -/
def c1WNode : Node :=
  { id := "n1", ntype := .table, position := (.fin 7, .fin 9) }

/-- Relationship targeting table `"ab"`, field `"c"` (counterexample input:
its concatenated key equals that of `c3r2`). -/
def c3r1 : Relationship :=
  { id := "r1", sourceTableId := "s1", sourceFieldId := "sf1"
    targetTableId := "ab", targetFieldId := "c" }

/-- Relationship targeting table `"a"`, field `"bc"`: a distinct target
pair whose concatenated key collides with `c3r1`. -/
def c3r2 : Relationship :=
  { id := "r2", sourceTableId := "s2", sourceFieldId := "sf2"
    targetTableId := "a", targetFieldId := "bc" }

/-- An area with a NaN x coordinate (counterexample input). -/
def c8Area : Area :=
  { id := "a1", x := .nan, y := .fin 0, width := .fin 10, height := .fin 10 }

/-- A current table node at `(1, 2)` (witness input for the drag-gating
claim). -/
def c2WNode : Node :=
  { id := "t1", ntype := .table, position := (.fin 1, .fin 2) }

/-- A source field of type `int` (witness input for the connect gating). -/
def c5SF : DBField :=
  { id := "f1", name := "a", type := { id := "int", name := "int" } }

/-- A target field of type `text` (witness input for the connect gating). -/
def c5TF : DBField :=
  { id := "f2", name := "b", type := { id := "text", name := "text" } }

/-- A concrete `getField` query surface resolving the two witness fields. -/
def c5GetField : String → String → Option DBField := fun tid fid =>
  if tid == "T1" && fid == "f1" then some c5SF
  else if tid == "T2" && fid == "f2" then some c5TF
  else none

/-- A concrete compatibility predicate: types are compatible when their ids
agree. -/
def c5Compat : FieldType → FieldType → DatabaseType → Bool :=
  fun a b _ => a.id == b.id

/-- A field-to-field connect gesture between the two witness fields. -/
def c5Params : ConnectParams :=
  { source := "T1", target := "T2"
    sourceHandle := some "left_rel_f1", targetHandle := some "target_rel_0_f2" }

/-- Domain table at `(1, 2)` (counterexample input for the carry-over
claim). -/
def c6Table : DBTable := { id := "t1", x := .fin 1, y := .fin 2 }

/-- An existing visual node for `c6Table` that is neither dragging nor
resizing, parked at `(5, 5)` and selected. -/
def c6Existing : Node :=
  { id := "t1", ntype := .table, position := (.fin 5, .fin 5)
    selected := true }

/-- Domain table at `(3, 4)` (witness input for the carry-over claim). -/
def c6WTable : DBTable := { id := "t2", x := .fin 3, y := .fin 4 }

/-- An existing visual node for `c6WTable` that is mid-drag with measured
dimensions. -/
def c6WExisting : Node :=
  { id := "t2", ntype := .table, position := (.fin 8, .fin 9)
    dragging := true
    measured := some { width := some (.fin 100), height := some (.fin 50) } }

/-- An edge from table `A` to table `B`, not directly selected (witness
input for the highlight claim). -/
def c7WEdge : Edge :=
  { id := "e1", source := "A", target := "B"
    sourceHandle := "sh", targetHandle := "th"
    kind := .relationship, payloadId := "e1" }

/-- A selected node for table `A` (witness input for the highlight claim). -/
def c7WNode : Node :=
  { id := "A", ntype := .table, position := (.fin 0, .fin 0)
    selected := true }

/-!
Helper lemmas shared by the claim proofs.
-/

theorem sanCoord_not_nan {v fb : JsNum} (h : jsIsNaN fb = false) :
    jsIsNaN (sanCoord v fb) = false := by
  cases v with
  | nan => simpa [sanCoord, jsIsNumber, jsIsNaN] using h
  | posInf => rfl
  | negInf => rfl
  | fin q => rfl

theorem assignIndexed_snd_filter {α : Type} (key : α → String) (k : String) :
    ∀ (l : List α) (ctr : String → Nat),
    ((assignIndexed key l ctr).filter (fun p => key p.1 == k)).map Prod.snd
      = List.range' (ctr k) ((l.filter (fun a => key a == k)).length) := by
  intro l
  induction l with
  | nil => intro ctr; simp [assignIndexed]
  | cons a rest ih =>
    intro ctr
    by_cases h : key a = k
    · subst h
      simp only [assignIndexed, List.filter_cons, beq_self_eq_true, if_pos,
        List.map_cons, List.length_cons, ih]
      simp [List.range'_succ]
    · have hb : (key a == k) = false := by simpa using h
      simp only [assignIndexed, List.filter_cons, hb, List.length_cons,
        Bool.false_eq_true, if_neg, not_false_eq_true]
      rw [ih]
      simp [Ne.symm h]

/-!
Claim C3 — handle indexing.
-/

/-- C3 (counterexample): the claim promises indices 0..N-1 to the N
relationships sharing the same `(targetTableId, targetFieldId)` pair, but
the counter is keyed by the separator-free concatenation
`targetTableId ++ targetFieldId`, so the distinct pairs `("ab","c")` and
`("a","bc")` share one counter: the sole relationship targeting
`("a","bc")` receives index 1 instead of 0. -/
theorem c3_dense_indices_counterexample :
    ((relAssign [c3r1, c3r2] (fun _ => 0)).filter
        (fun p => p.1.targetTableId == "a" && p.1.targetFieldId == "bc")).map
        Prod.snd
      ≠ List.range (([c3r1, c3r2].filter
          (fun r => r.targetTableId == "a" && r.targetFieldId == "bc")).length)
    := by decide

/-- C3 (amended): the target-handle counter of the edges projection is
keyed by the concatenated string `targetTableId ++ targetFieldId` (`relKey`)
rather than by the pair itself; the N relationships sharing one
concatenated key receive indices exactly 0..N-1 in input iteration order,
and dependency edges receive the same dense indexing keyed by `tableId`.
The composite handle ids are built from the leading string, the index, an
underscore and the target field id (resp. table id). -/
theorem c3_dense_indices_per_key :
    ∀ (rels : List Relationship) (deps : List Dependency) (k : String),
    (((relAssign rels (fun _ => 0)).filter (fun p => relKey p.1 == k)).map
          Prod.snd
        = List.range ((rels.filter (fun r => relKey r == k)).length))
    ∧ (((depAssign deps (fun _ => 0)).filter (fun p => p.1.tableId == k)).map
          Prod.snd
        = List.range ((deps.filter (fun d => d.tableId == k)).length))
    ∧ (∀ p : Relationship × Nat, (mkRelEdge p).targetHandle
        = TARGET_ID_PRE ++ toString p.2 ++ "_" ++ p.1.targetFieldId)
    ∧ (∀ (sd : Bool) (db : DatabaseType) (p : Dependency × Nat),
        (mkDepEdge sd db p).targetHandle
          = TARGET_DEP_PRE ++ toString p.2 ++ "_" ++ p.1.tableId) := by
  intro rels deps k
  refine ⟨?_, ?_, fun p => rfl, fun sd db p => rfl⟩
  · rw [relAssign, assignIndexed_snd_filter relKey k rels, List.range_eq_range']
  · rw [depAssign, assignIndexed_snd_filter Dependency.tableId k deps,
      List.range_eq_range']

/-!
Claim C8 — area projection and position finiteness.
-/

/-- C8 (counterexample): `areaToAreaNode` performs no sanitization, so an
area with a NaN coordinate yields a visual node with a non-finite position
coordinate, refuting the claimed finiteness invariant at this read
boundary. -/
theorem c8_area_position_counterexample :
    jsIsFinite (areaToAreaNode c8Area).position.1 = false := by decide

/-- C8 (amended): the visual node produced by `areaToAreaNode` carries the
area's coordinates unchanged — so its position is finite exactly when the
domain area's coordinates are finite; the finiteness invariant holds at
this read boundary only for areas with finite coordinates. -/
theorem c8_area_position_passthrough :
    ∀ (a : Area), (areaToAreaNode a).position = (a.x, a.y)
      ∧ jsIsFinite (areaToAreaNode a).position.1 = jsIsFinite a.x
      ∧ jsIsFinite (areaToAreaNode a).position.2 = jsIsFinite a.y := by
  intro a
  exact ⟨rfl, rfl, rfl⟩

/-!
Claim C9 — dependency edge visibility.
-/

/-- C9: every projected dependency edge is hidden exactly when the
show-dependencies preference is unset and the active database type is not
ClickHouse, and no relationship edge is ever hidden by this projection. -/
theorem c9_dependency_hidden_rule :
    ∀ (rels : List Relationship) (deps : List Dependency)
      (showDeps : Bool) (db : DatabaseType),
    ((canvasEdges rels deps showDeps db).all (fun e =>
      match e.kind with
      | .dependency => e.hidden == (!showDeps && !(db == DatabaseType.clickhouse))
      | .relationship => e.hidden == false)) = true := by
  intro rels deps showDeps db
  rw [List.all_eq_true]
  intro e he
  simp only [canvasEdges, List.mem_append] at he
  rcases he with h | h
  · obtain ⟨p, hp, rfl⟩ := List.mem_map.1 h
    simp [mkRelEdge]
  · obtain ⟨p, hp, rfl⟩ := List.mem_map.1 h
    simp [mkDepEdge]

/-!
Claim C10 — field editor toggles.
-/

/-- C10: pressing the primary-key toggle with value `v` issues exactly one
(debounced) update payload, and that payload sets both `primaryKey` and
`unique` to `v` and nothing else — so this control can never make a field
primary-key without simultaneously making it unique; the nullable toggle
issues exactly one payload setting only `nullable`. -/
theorem c10_primary_key_sets_unique :
    ∀ (v : Bool),
    (primaryKeyToggleUpdates v).length = 1
    ∧ ((primaryKeyToggleUpdates v).all (fun u =>
        u.primaryKey == some v && u.unique == some v
          && u.name == none && u.type == none
          && u.characterMaximumLength == none && u.nullable == none
          && u.comments == none)) = true
    ∧ (nullableToggleUpdates v).length = 1
    ∧ ((nullableToggleUpdates v).all (fun u =>
        u.nullable == some v
          && u.name == none && u.type == none
          && u.characterMaximumLength == none && u.primaryKey == none
          && u.unique == none && u.comments == none)) = true := by
  intro v
  refine ⟨rfl, ?_, rfl, ?_⟩ <;> cases v <;> decide

theorem sanitize_cid (nodes : List Node) (c : NodeChange) :
    (sanitizeNodeChange nodes c).cid = c.cid := by
  cases c with
  | position id pos d m => cases pos <;> rfl
  | dimensions id d r => rfl
  | remove id => rfl
  | select id s => rfl

theorem sanitize_isPosition (nodes : List Node) (c : NodeChange) :
    (sanitizeNodeChange nodes c).isPosition = c.isPosition := by
  cases c with
  | position id pos d m => cases pos <;> rfl
  | dimensions id d r => rfl
  | remove id => rfl
  | select id s => rfl

theorem sanitize_isRemove (nodes : List Node) (c : NodeChange) :
    (sanitizeNodeChange nodes c).isRemove = c.isRemove := by
  cases c with
  | position id pos d m => cases pos <;> rfl
  | dimensions id d r => rfl
  | remove id => rfl
  | select id s => rfl

theorem sanitize_draggingFlag (nodes : List Node) (c : NodeChange) :
    (sanitizeNodeChange nodes c).draggingFlag = c.draggingFlag := by
  cases c with
  | position id pos d m => cases pos <;> rfl
  | dimensions id d r => rfl
  | remove id => rfl
  | select id s => rfl

theorem mapSet_all (P : String × JsNum × JsNum → Bool)
    (m : List (String × JsNum × JsNum)) (k : String) (v : JsNum × JsNum)
    (hm : m.all P = true) (hk : P (k, v) = true) :
    (mapSet m k v).all P = true := by
  unfold mapSet
  split
  · rw [List.all_eq_true] at hm ⊢
    intro u hu
    obtain ⟨e, he, rfl⟩ := List.mem_map.1 hu
    by_cases hek : e.1 = k
    · simp only [hek, beq_self_eq_true, if_pos]
      exact hk
    · have : (e.1 == k) = false := by simpa using hek
      simp only [this, Bool.false_eq_true, if_neg, not_false_eq_true]
      exact hm e he
  · rw [List.all_append, hm]
    simpa using hk

theorem buildUpdates_aux (t : String) :
    ∀ (cs : List NodeChange) (m : List (String × JsNum × JsNum)),
    (∀ c ∈ cs, c.cid ≠ t) → m.all (fun u => !(u.1 == t)) = true →
    ((cs.foldl buildUpdatesStep m).all (fun u => !(u.1 == t))) = true := by
  intro cs
  induction cs with
  | nil => intro m _ hm; simpa using hm
  | cons c rest ih =>
    intro m hcs hm
    rw [List.foldl_cons]
    refine ih _ (fun x hx => hcs x (List.mem_cons_of_mem _ hx)) ?_
    unfold buildUpdatesStep
    cases hp : c.posOf with
    | none => exact hm
    | some p =>
      refine mapSet_all _ _ _ _ hm ?_
      have hct : c.cid ≠ t := hcs c (List.mem_cons_self _ _)
      simpa using hct

theorem buildUpdates_avoid (t : String) (cs : List NodeChange)
    (h : ∀ c ∈ cs, c.cid ≠ t) :
    (buildUpdates cs).all (fun u => !(u.1 == t)) = true :=
  buildUpdates_aux t cs [] h rfl

theorem positionChanges_spec (nodes : List Node) (changes : List NodeChange)
    (t : NodeKind) :
    ∀ c ∈ (findRelevantNodesChanges nodes changes t).positionChanges,
      c ∈ changes ∧ c.isPosition = true ∧ c.draggingFlag = false := by
  intro c hc
  simp only [findRelevantNodesChanges] at hc
  have h1 := List.mem_filter.1 hc
  have h2 := List.mem_filter.1 h1.1
  have h3 : c.isPosition = true ∧ c.draggingFlag = false := by
    simpa using h1.2
  exact ⟨h2.1, h3.1, h3.2⟩

theorem removeChanges_spec (nodes : List Node) (changes : List NodeChange)
    (t : NodeKind) :
    ∀ c ∈ (findRelevantNodesChanges nodes changes t).removeChanges,
      c ∈ changes ∧ c.isRemove = true := by
  intro c hc
  simp only [findRelevantNodesChanges] at hc
  have h1 := List.mem_filter.1 hc
  have h2 := List.mem_filter.1 h1.1
  exact ⟨h2.1, h1.2⟩

theorem areaUpdateEffect_isUpdateArea (c : NodeChange) :
    ∃ id x y w h, areaUpdateEffect c = Effect.updateArea id x y w h := by
  cases c <;> exact ⟨_, _, _, _, _, rfl⟩

theorem mem_ite_nil {α : Type} {c : Prop} [Decidable c] {l : List α} {x : α}
    (h : x ∈ if c then l else []) : x ∈ l := by
  split at h
  · exact h
  · exact absurd h (List.not_mem_nil x)

/-!
Claim C1 — coordinate sanitization at read boundaries.
-/

/-- C1 (counterexample): the sanitization guard is
`typeof v === 'number' && !isNaN(v)`, which an infinite coordinate passes
(`Infinity` is a number and not NaN), so `tableToTableNode` forwards an
infinite x unchanged: the produced coordinate is neither 0 nor finite,
refuting the claim for non-finite (as opposed to NaN) inputs. -/
theorem c1_nonfinite_counterexample :
    (tableToTableNode c1Table none).position.1 = JsNum.posInf
    ∧ jsIsFinite (tableToTableNode c1Table none).position.1 = false
    ∧ (tableToTableNode c1Table none).position.1 ≠ JsNum.fin 0 := by
  refine ⟨rfl, rfl, by decide⟩

/-- C1 (amended): the guard catches exactly NaN (and non-number) values.
For every table, the position produced by `tableToTableNode` is never NaN
(a NaN coordinate becomes 0); and in `onNodesChangeHandler`, whenever the
current nodes carry non-NaN coordinates, the sanitized position payload of
every change is never NaN (a NaN coordinate becomes the node's prior
coordinate, else 0). Infinite coordinates pass through both boundaries
unchanged. -/
theorem c1_nan_sanitized :
    (∀ (table : DBTable) (fs : Option (List String)),
      jsIsNaN (tableToTableNode table fs).position.1 = false
        ∧ jsIsNaN (tableToTableNode table fs).position.2 = false)
    ∧ (∀ (nodes : List Node) (c : NodeChange) (p : JsNum × JsNum),
        (∀ n ∈ nodes, jsIsNaN n.position.1 = false
          ∧ jsIsNaN n.position.2 = false) →
        (sanitizeNodeChange nodes c).posOf = some p →
        jsIsNaN p.1 = false ∧ jsIsNaN p.2 = false) := by
  constructor
  · intro table fs
    exact ⟨sanCoord_not_nan rfl, sanCoord_not_nan rfl⟩
  · intro nodes c p hn hp
    cases c with
    | position id pos dragging m =>
      cases pos with
      | none => simp [sanitizeNodeChange, NodeChange.posOf] at hp
      | some q =>
        have hfb : ∀ fb, (getNode nodes id = some fb) →
            jsIsNaN fb.position.1 = false ∧ jsIsNaN fb.position.2 = false := by
          intro fb hfind
          exact hn fb (List.mem_of_find?_eq_some hfind)
        simp only [sanitizeNodeChange, NodeChange.posOf] at hp
        cases hg : getNode nodes id with
        | none =>
          rw [hg] at hp
          obtain rfl := (Option.some.inj hp).symm
          exact ⟨sanCoord_not_nan rfl, sanCoord_not_nan rfl⟩
        | some n =>
          rw [hg] at hp
          obtain rfl := (Option.some.inj hp).symm
          exact ⟨sanCoord_not_nan (hfb n hg).1, sanCoord_not_nan (hfb n hg).2⟩
    | dimensions id d r => simp [sanitizeNodeChange, NodeChange.posOf] at hp
    | remove id => simp [sanitizeNodeChange, NodeChange.posOf] at hp
    | select id s => simp [sanitizeNodeChange, NodeChange.posOf] at hp

/-- C1 (witness): the amended theorem applied to a table with NaN
coordinates and to a position change carrying a NaN x over a node at
`(7, 9)` — the sanitized payload is `(7, 8)`, NaN-free in both parts. -/
theorem c1_nan_sanitized_witness :
    (jsIsNaN (tableToTableNode c1WTable none).position.1 = false
      ∧ jsIsNaN (tableToTableNode c1WTable none).position.2 = false)
    ∧ (jsIsNaN ((JsNum.fin 7, JsNum.fin 8) : JsNum × JsNum).1 = false
      ∧ jsIsNaN ((JsNum.fin 7, JsNum.fin 8) : JsNum × JsNum).2 = false) := by
  constructor
  · exact c1_nan_sanitized.1 c1WTable none
  · exact c1_nan_sanitized.2 [c1WNode]
      (NodeChange.position "n1" (some (.nan, .fin 8)) false none)
      (JsNum.fin 7, JsNum.fin 8) (by decide) (by decide)

/-!
Claim C2 — drag gating of the domain patch and the terminal commit.
-/

/-- C2: while a table's drag flag is true no position update for that table
reaches `updateTablesState` (first conjunct: if every position change for
table `t` in the batch is dragging, then no table patch issued by the
handler contains an update keyed `t`); and a terminal position change
(drag flag cleared) for an existing table node yields exactly one domain
patch carrying the final — sanitized and rounded — position together with
exactly one overlap-recompute trigger, and nothing else (second conjunct). -/
theorem c2_drag_gating_and_terminal_commit :
    (∀ (nodes : List Node) (ro : Bool) (changes : List NodeChange) (t : String),
      (∀ c ∈ changes, c.cid = t → c.isPosition = true → c.draggingFlag = true) →
      ((nodesHandlerEffects nodes ro changes).all (fun e =>
        match e with
        | Effect.updateTablesState ups _ => ups.all (fun u => !(u.1 == t))
        | _ => true)) = true)
    ∧ (∀ (nodes : List Node) (ro : Bool) (t : String) (p : JsNum × JsNum)
        (n : Node),
        getNode nodes t = some n → n.ntype = NodeKind.table →
        nodesHandlerEffects nodes ro
            [NodeChange.position t (some p) false none]
          = [Effect.updateTablesState
              [(t, jsRound (sanCoord p.1 n.position.1),
                  jsRound (sanCoord p.2 n.position.2))] [],
             Effect.overlapTrigger [t] []]) := by
  constructor
  · intro nodes ro changes t hdrag
    rw [List.all_eq_true]
    intro e he
    simp only [nodesHandlerEffects] at he
    rcases List.mem_append.1 he with h | h
    · have h2 := mem_ite_nil (mem_ite_nil h)
      simp only [List.mem_cons, List.not_mem_nil, or_false] at h2
      rcases h2 with rfl | rfl
      · refine buildUpdates_avoid t _ ?_
        intro c hc
        obtain ⟨hmem, hpos, hdragf⟩ :=
          positionChanges_spec nodes _ NodeKind.table c hc
        have hmem2 : c ∈ changes.map (sanitizeNodeChange nodes) := by
          by_cases hro : ro
          · rw [if_pos hro] at hmem
            exact List.mem_of_mem_filter hmem
          · rwa [if_neg hro] at hmem
        obtain ⟨c0, hc0, rfl⟩ := List.mem_map.1 hmem2
        intro hcid
        have h1 : c0.cid = t := by
          rw [← sanitize_cid nodes c0]; exact hcid
        have hpos2 : c0.isPosition = true := by
          rw [← sanitize_isPosition nodes c0]; exact hpos
        have h3 := hdrag c0 hc0 h1 hpos2
        rw [sanitize_draggingFlag nodes c0, h3] at hdragf
        exact absurd hdragf (by decide)
      · rfl
    · have h2 := mem_ite_nil h
      rcases List.mem_append.1 h2 with h3 | h3
      · obtain ⟨c, hc, rfl⟩ := List.mem_map.1 h3
        obtain ⟨id, x, y, w, hh, heq⟩ := areaUpdateEffect_isUpdateArea c
        rw [heq]
      · obtain ⟨c, hc, rfl⟩ := List.mem_map.1 h3
        rfl
  · intro nodes ro t p n hn hnt
    have htt : (NodeKind.table == NodeKind.table) = true := by decide
    have hta : (NodeKind.table == NodeKind.area) = false := by decide
    have hsan : sanitizeNodeChange nodes
        (NodeChange.position t (some p) false none)
        = NodeChange.position t
            (some (sanCoord p.1 n.position.1, sanCoord p.2 n.position.2)) false
            n.measured := by
      simp [sanitizeNodeChange, hn]
    have hrelT : findRelevantNodesChanges nodes
        [NodeChange.position t
          (some (sanCoord p.1 n.position.1, sanCoord p.2 n.position.2)) false
          n.measured] NodeKind.table
        = { positionChanges :=
              [NodeChange.position t
                (some (sanCoord p.1 n.position.1, sanCoord p.2 n.position.2))
                false n.measured]
            removeChanges := []
            sizeChanges := [] } := by
      simp [findRelevantNodesChanges, List.filter_cons, List.filter_nil,
        NodeChange.isPosition, NodeChange.isDimensions, NodeChange.isRemove,
        NodeChange.cid, NodeChange.draggingFlag, NodeChange.resizingFlag,
        hn, hnt, htt]
    have hrelA : findRelevantNodesChanges nodes
        [NodeChange.position t
          (some (sanCoord p.1 n.position.1, sanCoord p.2 n.position.2)) false
          n.measured] NodeKind.area
        = { positionChanges := [], removeChanges := [], sizeChanges := [] } := by
      simp [findRelevantNodesChanges, List.filter_cons, List.filter_nil,
        NodeChange.isPosition, NodeChange.isDimensions, NodeChange.isRemove,
        NodeChange.cid, NodeChange.draggingFlag, NodeChange.resizingFlag,
        hn, hnt, hta]
    cases ro <;>
      simp [nodesHandlerEffects, hsan, List.filter_cons, List.filter_nil,
        NodeChange.isRemove, hrelT, hrelA, buildUpdates, buildUpdatesStep,
        mapSet, NodeChange.posOf, NodeChange.cid, NodeChange.draggingFlag]

/-- C2 (witness): with a single node `t1` at `(1, 2)`, a dragging position
change produces no patch mentioning `t1`, while the terminal (non-dragging)
change to `(3, 4)` produces exactly the one patch and the one trigger. -/
theorem c2_drag_gating_witness :
    ((nodesHandlerEffects [c2WNode] false
        [NodeChange.position "t1" (some (.fin 3, .fin 4)) true none]).all
      (fun e =>
        match e with
        | Effect.updateTablesState ups _ => ups.all (fun u => !(u.1 == "t1"))
        | _ => true)) = true
    ∧ nodesHandlerEffects [c2WNode] false
        [NodeChange.position "t1" (some (.fin 3, .fin 4)) false none]
      = [Effect.updateTablesState
          [("t1", jsRound (sanCoord (.fin 3) c2WNode.position.1),
              jsRound (sanCoord (.fin 4) c2WNode.position.2))] [],
         Effect.overlapTrigger ["t1"] []] := by
  constructor
  · exact c2_drag_gating_and_terminal_commit.1 [c2WNode] false
      [NodeChange.position "t1" (some (.fin 3, .fin 4)) true none] "t1"
      (by decide)
  · exact c2_drag_gating_and_terminal_commit.2 [c2WNode] false "t1"
      (.fin 3, .fin 4) c2WNode (by decide) rfl

/-!
Claim C4 — read-only filtering of remove-type changes.
-/

/-- C4: with the diagram read-only, the edge-change handler issues no call
at all (in particular neither `removeRelationships` nor
`removeDependencies`), and the node-change handler issues no `removeArea`
call while every table patch it issues carries an empty removal set — so no
remove-type change reaches the domain mutation surface. -/
theorem c4_readonly_blocks_removals :
    ∀ (edges : List Edge) (echanges : List EdgeChange)
      (nodes : List Node) (nchanges : List NodeChange),
    edgesHandlerEffects edges true echanges = []
    ∧ ((nodesHandlerEffects nodes true nchanges).all (fun e =>
        match e with
        | Effect.updateTablesState _ removals => removals.isEmpty
        | Effect.removeArea _ => false
        | _ => true)) = true := by
  intro edges echanges nodes nchanges
  constructor
  · have h0 : ((echanges.filter (fun c => !c.isRemove)).filter
        (fun c => c.isRemove)) = [] := by
      rw [List.filter_filter]
      simp
    simp [edgesHandlerEffects, h0]
  · have hrem : ∀ (k : NodeKind),
        (findRelevantNodesChanges nodes
          ((nchanges.map (sanitizeNodeChange nodes)).filter
            (fun c => !c.isRemove)) k).removeChanges = [] := by
      intro k
      simp only [findRelevantNodesChanges]
      rw [List.filter_eq_nil_iff]
      intro a ha
      have h1 := List.mem_filter.1 ha
      have h2 := List.mem_filter.1 h1.1
      simpa using h2.2
    rw [List.all_eq_true]
    intro e he
    simp only [nodesHandlerEffects, if_pos] at he
    rcases List.mem_append.1 he with h | h
    · have h2 := mem_ite_nil (mem_ite_nil h)
      simp only [List.mem_cons, List.not_mem_nil, or_false] at h2
      rcases h2 with rfl | rfl
      · show ((findRelevantNodesChanges nodes _ NodeKind.table).removeChanges.map
          NodeChange.cid).isEmpty = true
        rw [hrem NodeKind.table]
        rfl
      · rfl
    · have h2 := mem_ite_nil h
      rcases List.mem_append.1 h2 with h3 | h3
      · obtain ⟨c, hc, rfl⟩ := List.mem_map.1 h3
        obtain ⟨id, x, y, w, hh, heq⟩ := areaUpdateEffect_isUpdateArea c
        rw [heq]
      · rw [hrem NodeKind.area] at h3
        simp at h3

/-!
Claim C5 — connect-gesture compatibility gating.
-/

/-- C5: for a field-to-field connect gesture (source handle not a
dependency handle) whose resolved source and target fields both exist, the
handler issues exactly one incompatibility toast and no
`createRelationship` when the dialect deems the two field types
incompatible, and exactly one `createRelationship` carrying the resolved
table and field ids (and no toast) when it deems them compatible. -/
theorem c5_connect_compat_gating
    (getField : String → String → Option DBField)
    (compat : FieldType → FieldType → DatabaseType → Bool)
    (db : DatabaseType) (params : ConnectParams) (sf tf : DBField)
    (h1 : optStartsWith params.sourceHandle TOP_SOURCE_HANDLE_ID_PRE = false)
    (h2 : optStartsWith params.sourceHandle BOTTOM_SOURCE_HANDLE_ID_PRE = false)
    (h3 : getField params.source (handleFieldId params.sourceHandle) = some sf)
    (h4 : getField params.target (handleFieldId params.targetHandle) = some tf) :
    onConnectHandler getField compat db params
      = if compat sf.type tf.type db then
          [ConnectEffect.createRelationship params.source params.target
            (handleFieldId params.sourceHandle)
            (handleFieldId params.targetHandle)]
        else [ConnectEffect.toastIncompatible] := by
  simp only [onConnectHandler, h1, h2, h3, h4, Bool.or_self,
    Bool.false_eq_true, if_neg, not_false_eq_true]
  cases hc : compat sf.type tf.type db <;> simp [hc]

/-- C5 (witness): the gating theorem applied to a concrete gesture between
a field of type `int` and a field of type `text` under an id-equality
compatibility predicate (the pair is incompatible, so the right-hand `if`
evaluates to the single toast). -/
theorem c5_connect_compat_gating_witness :
    onConnectHandler c5GetField c5Compat DatabaseType.postgresql c5Params
      = if c5Compat c5SF.type c5TF.type DatabaseType.postgresql then
          [ConnectEffect.createRelationship c5Params.source c5Params.target
            (handleFieldId c5Params.sourceHandle)
            (handleFieldId c5Params.targetHandle)]
        else [ConnectEffect.toastIncompatible] :=
  c5_connect_compat_gating c5GetField c5Compat DatabaseType.postgresql
    c5Params c5SF c5TF (by decide) (by decide) (by decide) (by decide)

/-!
Claim C6 — carry-over of transient state in the re-projection.
-/

/-- C6 (counterexample): the claim says `position` and `selected` are
carried over from the prior visual node only while an interaction is
active; but for a node that is neither dragging nor resizing, the
re-projection still keeps the prior (valid) position instead of the
domain-derived one, and still copies the prior selection flag. -/
theorem c6_carryover_counterexample :
    c6Existing.dragging = false ∧ c6Existing.resizing = false
    ∧ (reprojectTable c6Table none ⟨[], 0⟩ [c6Existing] false).position
        ≠ (tableToTableNode c6Table none).position
    ∧ (reprojectTable c6Table none ⟨[], 0⟩ [c6Existing] false).selected = true
    ∧ (tableToTableNode c6Table none).selected = false := by
  decide

/-- C6 (amended): when an existing visual node is found, the re-projection
carries over `measured` only while the node is dragging or resizing (else
the domain-derived value — none until remeasured — is authoritative), and
carries over the drag and resize flags; but it carries over `position`
whenever the prior position is valid (both coordinates numbers and not
NaN) regardless of interaction, and always carries over `selected`. -/
theorem c6_carryover_amended (table : DBTable) (fs : Option (List String))
    (g : Graph) (currentNodes : List Node) (hot : Bool) (ex : Node)
    (hex : currentNodes.find? (fun nd => nd.id == table.id) = some ex) :
    ((reprojectTable table fs g currentNodes hot).position
        = if jsIsNumber ex.position.1 && !jsIsNaN ex.position.1
              && jsIsNumber ex.position.2 && !jsIsNaN ex.position.2
          then ex.position else (tableToTableNode table fs).position)
    ∧ ((reprojectTable table fs g currentNodes hot).measured
        = if ex.dragging || ex.resizing then ex.measured else none)
    ∧ (reprojectTable table fs g currentNodes hot).selected = ex.selected
    ∧ (reprojectTable table fs g currentNodes hot).dragging = ex.dragging
    ∧ (reprojectTable table fs g currentNodes hot).resizing = ex.resizing := by
  unfold reprojectTable
  rw [hex]
  by_cases hv : (jsIsNumber ex.position.1 && !jsIsNaN ex.position.1
      && jsIsNumber ex.position.2 && !jsIsNaN ex.position.2) = true
  all_goals cases hd : ex.dragging
  all_goals cases hr : ex.resizing
  all_goals simp [tableToTableNode, hv, hd, hr]

/-- C6 (witness): the amended theorem applied to a mid-drag node — the
prior position, measured dimensions, selection and drag flag all survive
the re-projection. -/
theorem c6_carryover_amended_witness :
    ((reprojectTable c6WTable none ⟨[], 0⟩ [c6WExisting] false).position
        = if jsIsNumber c6WExisting.position.1 && !jsIsNaN c6WExisting.position.1
              && jsIsNumber c6WExisting.position.2 && !jsIsNaN c6WExisting.position.2
          then c6WExisting.position else (tableToTableNode c6WTable none).position)
    ∧ ((reprojectTable c6WTable none ⟨[], 0⟩ [c6WExisting] false).measured
        = if c6WExisting.dragging || c6WExisting.resizing
          then c6WExisting.measured else none)
    ∧ (reprojectTable c6WTable none ⟨[], 0⟩ [c6WExisting] false).selected
        = c6WExisting.selected
    ∧ (reprojectTable c6WTable none ⟨[], 0⟩ [c6WExisting] false).dragging
        = c6WExisting.dragging
    ∧ (reprojectTable c6WTable none ⟨[], 0⟩ [c6WExisting] false).resizing
        = c6WExisting.resizing :=
  c6_carryover_amended c6WTable none ⟨[], 0⟩ [c6WExisting] false c6WExisting
    (by decide)

/-!
Claim C7 — edge highlight synchronization.
-/

/-- C7: after the highlight pass, an edge is highlighted exactly when it is
directly selected or one of its endpoint nodes is selected; and every edge
is animated exactly when highlighted, with zIndex 1 when highlighted and 0
otherwise. Node ids are assumed unique, as the projection guarantees. -/
theorem c7_highlight_iff (edges : List Edge) (nodes : List Node)
    (hnd : (edges.map Edge.id).Nodup) (i : Nat) (hi : i < edges.length)
    (ho : i < (highlightEdges edges (selectedNodeIds nodes)
        (selectedEdgeIds edges)).length) :
    (((highlightEdges edges (selectedNodeIds nodes)
          (selectedEdgeIds edges)).get ⟨i, ho⟩).highlighted
      = ((edges.get ⟨i, hi⟩).selected
          || nodes.any (fun nd => nd.selected
              && (nd.id == (edges.get ⟨i, hi⟩).source
                  || nd.id == (edges.get ⟨i, hi⟩).target))))
    ∧ ((highlightEdges edges (selectedNodeIds nodes)
          (selectedEdgeIds edges)).get ⟨i, ho⟩).animated
        = ((highlightEdges edges (selectedNodeIds nodes)
          (selectedEdgeIds edges)).get ⟨i, ho⟩).highlighted
    ∧ ((highlightEdges edges (selectedNodeIds nodes)
          (selectedEdgeIds edges)).get ⟨i, ho⟩).zIndex
        = (if ((highlightEdges edges (selectedNodeIds nodes)
            (selectedEdgeIds edges)).get ⟨i, ho⟩).highlighted = true
           then 1 else 0) := by
  have hmem : edges.get ⟨i, hi⟩ ∈ edges := List.get_mem edges i hi
  have hinj : ∀ b ∈ edges, b.id = (edges.get ⟨i, hi⟩).id →
      b = edges.get ⟨i, hi⟩ :=
    fun b hb hbe => List.inj_on_of_nodup_map hnd hb hmem hbe
  simp only [highlightEdges, List.get_eq_getElem, List.getElem_map]
  refine ⟨?_, trivial, trivial⟩
  rw [Bool.eq_iff_iff]
  simp only [List.contains, List.elem_eq_mem, List.mem_append, List.mem_map,
    List.mem_filter, decide_eq_true_eq, List.any_eq_true, Bool.or_eq_true,
    Bool.and_eq_true, beq_iff_eq, selectedEdgeIds, selectedNodeIds]
  constructor
  · rintro (⟨b, ⟨hb, hsel⟩, hbe⟩ | ⟨b, ⟨hb, hsel⟩, hbe⟩)
    · have hb2 := hinj b hb hbe
      subst hb2
      right
      rcases hsel with h | h
      · obtain ⟨nd, ⟨hnd2, hnds⟩, hids⟩ := h
        exact ⟨nd, hnd2, hnds, Or.inl hids⟩
      · obtain ⟨nd, ⟨hnd2, hnds⟩, hids⟩ := h
        exact ⟨nd, hnd2, hnds, Or.inr hids⟩
    · have hb2 := hinj b hb hbe
      subst hb2
      exact Or.inl hsel
  · rintro (hsel | ⟨nd, hnd2, hnds, hside⟩)
    · exact Or.inr ⟨edges.get ⟨i, hi⟩, ⟨hmem, hsel⟩, rfl⟩
    · refine Or.inl ⟨edges.get ⟨i, hi⟩, ⟨hmem, ?_⟩, rfl⟩
      rcases hside with h | h
      · exact Or.inl ⟨nd, ⟨hnd2, hnds⟩, h⟩
      · exact Or.inr ⟨nd, ⟨hnd2, hnds⟩, h⟩

/-- C7 (witness): selecting table `A` highlights (and animates, and
raises) the never-directly-selected edge `A → B`. -/
theorem c7_highlight_iff_witness :
    (((highlightEdges [c7WEdge] (selectedNodeIds [c7WNode])
          (selectedEdgeIds [c7WEdge])).get ⟨0, by decide⟩).highlighted
      = (([c7WEdge].get ⟨0, by decide⟩).selected
          || [c7WNode].any (fun nd => nd.selected
              && (nd.id == ([c7WEdge].get ⟨0, by decide⟩).source
                  || nd.id == ([c7WEdge].get ⟨0, by decide⟩).target))))
    ∧ ((highlightEdges [c7WEdge] (selectedNodeIds [c7WNode])
          (selectedEdgeIds [c7WEdge])).get ⟨0, by decide⟩).animated
        = ((highlightEdges [c7WEdge] (selectedNodeIds [c7WNode])
          (selectedEdgeIds [c7WEdge])).get ⟨0, by decide⟩).highlighted
    ∧ ((highlightEdges [c7WEdge] (selectedNodeIds [c7WNode])
          (selectedEdgeIds [c7WEdge])).get ⟨0, by decide⟩).zIndex
        = (if ((highlightEdges [c7WEdge] (selectedNodeIds [c7WNode])
            (selectedEdgeIds [c7WEdge])).get ⟨0, by decide⟩).highlighted = true
           then 1 else 0) :=
  c7_highlight_iff [c7WEdge] [c7WNode] (by decide) 0 (by decide) (by decide)

end ChartDB
